import Mathlib

/-!
Verification of the concentration-projection core of the `antidepressant`
dashboard (the `chartData` computation in `ConcentrationChart`).

The data model follows the source: a `Product` has an opaque string id and a
half-life in hours; a `Quantity` event references a product id and carries an
amount and a timestamp. Timestamps and the sample instants are modelled as
rationals measured in milliseconds (the source works on `Date.getTime()`
values); amounts and half-lives are rationals. Concentration values are real
numbers, with `Real.exp` standing in for `Math.exp` and `Real.log 2` for
`Math.log(2)`.
-/

open scoped BigOperators

/-- A product: `id`, `name`, `halfLife` (hours), `color`. Mirrors the
`Product` interface consumed by `ConcentrationChart`. -/
structure Product where
  id : String
  name : String
  halfLife : ℚ
  color : String

/-- A quantity event: `id`, `productId`, `amount` (mg), `timestamp`
(milliseconds since epoch, i.e. `quantity.timestamp.getTime()`). -/
structure Quantity where
  id : String
  productId : String
  amount : ℚ
  timestamp : ℚ

/-- One chart sample: the instant `time` (ms) and, for each product in input
order, the pair of its id and its concentration value.  The source stores
these as dynamic keys `dataPoint[product.id]`; the `timeLabel` display string
is omitted as pure formatting. -/
structure ChartDataPoint where
  time : ℚ
  values : List (String × ℝ)

/-- `calculateConcentration` from the source:
`lambda = Math.log(2) / halfLife; return initialAmount * Math.exp(-lambda * timeElapsed)`. -/
noncomputable def calculateConcentration (initialAmount halfLife timeElapsed : ℚ) : ℝ :=
  let lambda : ℝ := Real.log 2 / (halfLife : ℝ)
  (initialAmount : ℝ) * Real.exp (-lambda * (timeElapsed : ℝ))

/-- The per-product accumulation inside the sample loop of `chartData`:
filter the quantities by `q.productId === product.id`, sum
`calculateConcentration(q.amount, product.halfLife, hoursElapsed)` over those
with `hoursElapsed >= 0` (where `hoursElapsed = (time - quantityTime) / (1000*60*60)`),
and clamp with `Math.max(0, totalConcentration)`. -/
noncomputable def productConcentration (quantities : List Quantity) (product : Product)
    (time : ℚ) : ℝ :=
  let productQuantities := quantities.filter (fun q => q.productId == product.id)
  let totalConcentration : ℝ :=
    (productQuantities.map (fun q =>
      let hoursElapsed : ℚ := (time - q.timestamp) / 3600000
      if 0 ≤ hoursElapsed then
        calculateConcentration q.amount product.halfLife hoursElapsed
      else 0)).sum
  max 0 totalConcentration

/-- The interval-selection policy of `chartData` (inlined there):
1h when `totalHours <= 24`, 2h when `totalHours <= 168`, else 6h. -/
def intervalForTotalHours (totalHours : ℚ) : ℚ :=
  if totalHours ≤ 24 then 1 else if totalHours ≤ 168 then 2 else 6

/-- The sample-instant loop of `chartData`:
`for (let time = start; time <= end; time += intervalHours * 60 * 60 * 1000)`.
The extra `0 < step` conjunct makes the recursion total in Lean; the source
only ever runs the loop with step `intervalHours * 3600000 > 0`, and with a
non-positive step the JS loop would not terminate at all. -/
def sampleTimes (endTime step t : ℚ) : List ℚ :=
  if h : t ≤ endTime ∧ 0 < step then
    t :: sampleTimes endTime step (t + step)
  else []
termination_by (⌊(endTime - t) / step⌋ + 1).toNat
decreasing_by
  obtain ⟨hle, hstep⟩ := h
  have hx : (0 : ℚ) ≤ (endTime - t) / step :=
    div_nonneg (by linarith) (le_of_lt hstep)
  have hfloor : (0 : ℤ) ≤ ⌊(endTime - t) / step⌋ := Int.floor_nonneg.mpr hx
  have hrw : (endTime - (t + step)) / step = (endTime - t) / step - 1 := by
    field_simp
    ring
  rw [hrw, Int.floor_sub_one]
  omega

/-- `chartData` from the source (`src/unnamed/part_008`): empty output when
either input list is empty; otherwise select the interval from the window
span in hours and emit one `ChartDataPoint` per generated sample instant,
carrying `productConcentration` for every product. -/
noncomputable def chartData (products : List Product) (quantities : List Quantity)
    (startTime endTime : ℚ) : List ChartDataPoint :=
  if products.isEmpty || quantities.isEmpty then []
  else
    let totalHours := (endTime - startTime) / 3600000
    let intervalHours := intervalForTotalHours totalHours
    (sampleTimes endTime (intervalHours * 3600000) startTime).map (fun time =>
      { time := time
        values := products.map (fun product =>
          (product.id, productConcentration quantities product time)) })

/-- The value the spec's formula assigns to product `p` at instant `t`:
`max(0, Σ over events e with e.productId = p.id and e.timestamp ≤ t of
e.amount * exp(-(ln 2 / p.halfLife) * hoursElapsed))`.  Written from the
spec's words, to be compared with `productConcentration`. -/
noncomputable def specConcentration (quantities : List Quantity) (p : Product)
    (t : ℚ) : ℝ :=
  max 0 (((quantities.filter (fun e => e.productId == p.id && decide (e.timestamp ≤ t))).map
    (fun e => (e.amount : ℝ) *
      Real.exp (-(Real.log 2 / (p.halfLife : ℝ)) * (((t - e.timestamp) / 3600000 : ℚ) : ℝ)))).sum)

/-- The loop step of `chartData` in milliseconds:
`intervalHours * 60 * 60 * 1000` for the interval selected from the window
span `(endTime - startTime) / 3600000` in hours. -/
def stepFor (startTime endTime : ℚ) : ℚ :=
  intervalForTotalHours ((endTime - startTime) / 3600000) * 3600000

/-- Concrete fixture: a product with a 24h half-life. -/
def prodA : Product := ⟨"p1", "A", 24, "red"⟩

/-- Concrete fixture: a 20 mg dose of `prodA` at epoch instant 0. -/
def evA : Quantity := ⟨"q1", "p1", 20, 0⟩

/-- Concrete fixture: an event whose `productId` matches no product. -/
def evDangling : Quantity := ⟨"q2", "zzz", 5, 0⟩

/-- Concrete fixture: a 7 mg dose of `prodA` at instant 0. -/
def evSa : Quantity := ⟨"qa", "p1", 7, 0⟩

/-- Concrete fixture: a 13 mg dose of `prodA` at instant 0. -/
def evSb : Quantity := ⟨"qb", "p1", 13, 0⟩

/-- Concrete fixture: a 20 mg dose of `prodA` at instant 0 (7 + 13 combined). -/
def evSab : Quantity := ⟨"qc", "p1", 20, 0⟩

/-! ### Closed form of the sample loop -/

lemma floor_shift (endTime step t : ℚ) (hstep : 0 < step) :
    ⌊(endTime - (t + step)) / step⌋ = ⌊(endTime - t) / step⌋ - 1 := by
  have hrw : (endTime - (t + step)) / step = (endTime - t) / step - 1 := by
    field_simp
    ring
  rw [hrw, Int.floor_sub_one]

lemma sampleTimes_eq_range_map (endTime step : ℚ) (hstep : 0 < step) (t : ℚ) :
    sampleTimes endTime step t =
      (List.range (⌊(endTime - t) / step⌋ + 1).toNat).map
        (fun (k : ℕ) => t + (k : ℚ) * step) := by
  generalize hn : (⌊(endTime - t) / step⌋ + 1).toNat = n
  induction n generalizing t with
  | zero =>
    have h1 : ⌊(endTime - t) / step⌋ + 1 ≤ 0 := by omega
    have h2 : ¬ t ≤ endTime := by
      intro hle
      have hx : (0 : ℚ) ≤ (endTime - t) / step :=
        div_nonneg (by linarith) (le_of_lt hstep)
      have := Int.floor_nonneg.mpr hx
      omega
    rw [sampleTimes]
    simp [h2]
  | succ n ih =>
    have htle : t ≤ endTime := by
      by_contra hlt
      push_neg at hlt
      have hx : (endTime - t) / step < 0 :=
        div_neg_of_neg_of_pos (by linarith) hstep
      have : ⌊(endTime - t) / step⌋ < 0 := by
        exact_mod_cast Int.floor_lt.mpr (by exact_mod_cast hx)
      omega
    rw [sampleTimes, dif_pos ⟨htle, hstep⟩]
    have hn' : (⌊(endTime - (t + step)) / step⌋ + 1).toNat = n := by
      rw [floor_shift endTime step t hstep]
      omega
    rw [ih (t + step) hn', List.range_succ_eq_map, List.map_cons, List.map_map]
    refine List.cons_eq_cons.mpr ⟨by push_cast; ring, ?_⟩
    refine List.map_congr_left (fun k _ => ?_)
    simp only [Function.comp_apply]
    push_cast
    ring

lemma sampleTimes_length (endTime step : ℚ) (hstep : 0 < step) (t : ℚ) :
    (sampleTimes endTime step t).length = (⌊(endTime - t) / step⌋ + 1).toNat := by
  rw [sampleTimes_eq_range_map endTime step hstep t]
  simp

lemma sampleTimes_mem (endTime step : ℚ) (hstep : 0 < step) (t x : ℚ) :
    x ∈ sampleTimes endTime step t ↔ ∃ k : ℕ, x = t + (k : ℚ) * step ∧ x ≤ endTime := by
  rw [sampleTimes_eq_range_map endTime step hstep t]
  simp only [List.mem_map, List.mem_range]
  constructor
  · rintro ⟨k, hk, rfl⟩
    refine ⟨k, rfl, ?_⟩
    have hk' : (k : ℤ) ≤ ⌊(endTime - t) / step⌋ := by omega
    have : (k : ℚ) ≤ (endTime - t) / step := by
      exact_mod_cast le_trans (by exact_mod_cast hk') (Int.floor_le _)
    have := (le_div_iff₀ hstep).mp this
    linarith
  · rintro ⟨k, rfl, hle⟩
    refine ⟨k, ?_, rfl⟩
    have : (k : ℚ) * step ≤ endTime - t := by linarith
    have hk : (k : ℚ) ≤ (endTime - t) / step := (le_div_iff₀ hstep).mpr this
    have hk' : (k : ℤ) ≤ ⌊(endTime - t) / step⌋ := Int.le_floor.mpr (by exact_mod_cast hk)
    omega

/-! ### The per-product sum, rewritten to the spec's formula -/

lemma calcConc_eq_specTerm (p : Product) (e : Quantity) (t : ℚ) :
    calculateConcentration e.amount p.halfLife ((t - e.timestamp) / 3600000)
    = (e.amount : ℝ) *
        Real.exp (-(Real.log 2 / (p.halfLife : ℝ)) * (((t - e.timestamp) / 3600000 : ℚ) : ℝ)) := by
  rfl

lemma concentration_sum_eq (l : List Quantity) (p : Product) (t : ℚ) :
    ((l.filter (fun q => q.productId == p.id)).map (fun q =>
      if (0 : ℚ) ≤ (t - q.timestamp) / 3600000 then
        calculateConcentration q.amount p.halfLife ((t - q.timestamp) / 3600000)
      else 0)).sum
    = ((l.filter (fun e => e.productId == p.id && decide (e.timestamp ≤ t))).map
        (fun e => (e.amount : ℝ) *
          Real.exp (-(Real.log 2 / (p.halfLife : ℝ)) * (((t - e.timestamp) / 3600000 : ℚ) : ℝ)))).sum := by
  induction l with
  | nil => simp
  | cons q l ih =>
    by_cases hid : q.productId = p.id
    · have hq1 : (q.productId == p.id) = true := by simp [hid]
      by_cases hts : q.timestamp ≤ t
      · have hq2 : (q.productId == p.id && decide (q.timestamp ≤ t)) = true := by
          simp [hid, hts]
        have hnn : (0 : ℚ) ≤ (t - q.timestamp) / 3600000 :=
          div_nonneg (by linarith) (by norm_num)
        rw [List.filter_cons, List.filter_cons, if_pos hq1, if_pos hq2,
          List.map_cons, List.map_cons, List.sum_cons, List.sum_cons, ih,
          if_pos hnn, calcConc_eq_specTerm]
      · have hq2 : ¬ (q.productId == p.id && decide (q.timestamp ≤ t)) = true := by
          simp [hts]
        have hneg : ¬ (0 : ℚ) ≤ (t - q.timestamp) / 3600000 := by
          rw [not_le]
          exact div_neg_of_neg_of_pos (by push_neg at hts; linarith) (by norm_num)
        rw [List.filter_cons, List.filter_cons, if_pos hq1, if_neg hq2,
          List.map_cons, List.sum_cons, if_neg hneg, ih, zero_add]
    · have hq1 : ¬ (q.productId == p.id) = true := by simp [hid]
      have hq2 : ¬ (q.productId == p.id && decide (q.timestamp ≤ t)) = true := by
        simp [hid]
      rw [List.filter_cons, List.filter_cons, if_neg hq1, if_neg hq2, ih]

lemma productConcentration_eq_spec (quantities : List Quantity) (p : Product) (t : ℚ) :
    productConcentration quantities p t = specConcentration quantities p t := by
  show max 0 _ = max 0 _
  rw [concentration_sum_eq]

/-! ### Unfolding `chartData` on non-empty inputs -/

lemma intervalForTotalHours_pos (totalHours : ℚ) : 0 < intervalForTotalHours totalHours := by
  unfold intervalForTotalHours
  split_ifs <;> norm_num

lemma stepFor_pos (startTime endTime : ℚ) : 0 < stepFor startTime endTime := by
  unfold stepFor
  have := intervalForTotalHours_pos ((endTime - startTime) / 3600000)
  positivity

lemma chartData_of_ne_nil (products : List Product) (quantities : List Quantity)
    (hp : products ≠ []) (hq : quantities ≠ []) (startTime endTime : ℚ) :
    chartData products quantities startTime endTime =
      (sampleTimes endTime (stepFor startTime endTime) startTime).map (fun time =>
        { time := time
          values := products.map (fun product =>
            (product.id, productConcentration quantities product time)) }) := by
  unfold chartData
  rw [if_neg]
  · rfl
  · simp [hp, hq]

/-- C7: the projector returns the empty sequence whenever the products list
or the events list is empty: `project([], events) = []` and
`project(products, []) = []`. -/
theorem chartData_empty_inputs (products : List Product) (quantities : List Quantity)
    (startTime endTime : ℚ) :
    chartData [] quantities startTime endTime = [] ∧
    chartData products [] startTime endTime = [] := by
  constructor <;> simp [chartData]

/-- C2: the sample interval is selected solely from the window span in hours:
1h for spans up to 24h, 2h for spans in (24h, 168h], and 6h beyond 168h. -/
theorem interval_policy (span : ℚ) :
    (span ≤ 24 → intervalForTotalHours span = 1) ∧
    (24 < span → span ≤ 168 → intervalForTotalHours span = 2) ∧
    (168 < span → intervalForTotalHours span = 6) := by
  refine ⟨fun h => ?_, fun h1 h2 => ?_, fun h => ?_⟩
  · unfold intervalForTotalHours
    rw [if_pos h]
  · unfold intervalForTotalHours
    rw [if_neg (not_le.mpr h1), if_pos h2]
  · unfold intervalForTotalHours
    rw [if_neg (by linarith), if_neg (not_le.mpr h)]

/-- Witness for C2 at the spec's three sample spans. -/
theorem interval_policy_witness :
    intervalForTotalHours 10 = 1 ∧ intervalForTotalHours 100 = 2 ∧
    intervalForTotalHours 400 = 6 :=
  ⟨(interval_policy 10).1 (by norm_num),
   (interval_policy 100).2.1 (by norm_num) (by norm_num),
   (interval_policy 400).2.2 (by norm_num)⟩

/-! ### Helper equations for `productConcentration` -/

lemma productConcentration_def (quantities : List Quantity) (p : Product) (t : ℚ) :
    productConcentration quantities p t
      = max 0 (((quantities.filter (fun q => q.productId == p.id)).map (fun q =>
          if (0 : ℚ) ≤ (t - q.timestamp) / 3600000 then
            calculateConcentration q.amount p.halfLife ((t - q.timestamp) / 3600000)
          else 0)).sum) := rfl

lemma calculateConcentration_eq (a h dt : ℚ) :
    calculateConcentration a h dt
      = (a : ℝ) * Real.exp (-(Real.log 2 / (h : ℝ)) * (dt : ℝ)) := rfl

lemma productConcentration_nil (p : Product) (t : ℚ) :
    productConcentration [] p t = 0 := by
  rw [productConcentration_def]
  simp

lemma sampleTimes_zero_window : sampleTimes 0 3600000 0 = [0] := by
  rw [sampleTimes, dif_pos (by norm_num), sampleTimes, dif_neg (by norm_num)]

lemma chartData_single_eval :
    chartData [prodA] [evA] 0 0
      = [⟨0, [("p1", productConcentration [evA] prodA 0)]⟩] := by
  rw [chartData_of_ne_nil _ _ (by simp) (by simp) 0 0]
  have hstep : stepFor 0 0 = 3600000 := by
    norm_num [stepFor, intervalForTotalHours]
  rw [hstep, sampleTimes_zero_window]
  rfl

/-- C1: at every generated sample instant, the value `chartData` assigns to a
product `p` equals `max(0, Σ` over events with matching id and timestamp `≤ t`
of `amount * exp(-(ln 2 / halfLife) * hoursElapsed))`, i.e. `specConcentration`. -/
theorem chartData_values_eq_spec (products : List Product) (quantities : List Quantity)
    (startTime endTime : ℚ) :
    ∀ dp ∈ chartData products quantities startTime endTime,
      dp.values = products.map (fun p => (p.id, specConcentration quantities p dp.time)) := by
  intro dp hdp
  by_cases hp : products = []
  · rw [hp] at hdp
    simp [chartData] at hdp
  · by_cases hq : quantities = []
    · rw [hq] at hdp
      simp [chartData] at hdp
    · rw [chartData_of_ne_nil products quantities hp hq] at hdp
      obtain ⟨t, ht, rfl⟩ := List.mem_map.mp hdp
      dsimp only
      exact List.map_congr_left (fun p _ => by rw [productConcentration_eq_spec])

/-- Witness for C1 on a one-product, one-event, one-sample window. -/
theorem chartData_values_eq_spec_witness :
    (⟨0, [("p1", productConcentration [evA] prodA 0)]⟩ : ChartDataPoint).values
      = [prodA].map (fun p => (p.id, specConcentration [evA] p
          (⟨0, [("p1", productConcentration [evA] prodA 0)]⟩ : ChartDataPoint).time)) :=
  chartData_values_eq_spec [prodA] [evA] 0 0
    ⟨0, [("p1", productConcentration [evA] prodA 0)]⟩
    (by rw [chartData_single_eval]; exact List.mem_singleton.mpr rfl)

/-- C3: on non-empty inputs and `start ≤ end`, the instants of the returned
samples are exactly the multiples `start + k * step` that stay `≤ end`: the
first instant is `start`, consecutive instants differ by exactly the step,
the sequence is strictly increasing, and membership is exactly
`{start + k*step | k ∈ ℕ, start + k*step ≤ end}` (so the last instant may
fall strictly short of `end` and is never rounded onto it). -/
theorem chartData_grid (products : List Product) (quantities : List Quantity)
    (startTime endTime : ℚ) (hp : products ≠ []) (hq : quantities ≠ [])
    (hse : startTime ≤ endTime) :
    ((chartData products quantities startTime endTime).map (fun dp => dp.time)).head?
        = some startTime ∧
    List.Chain' (fun a b => b = a + stepFor startTime endTime)
      ((chartData products quantities startTime endTime).map (fun dp => dp.time)) ∧
    List.Pairwise (· < ·)
      ((chartData products quantities startTime endTime).map (fun dp => dp.time)) ∧
    (∀ x, x ∈ (chartData products quantities startTime endTime).map (fun dp => dp.time) ↔
      ∃ k : ℕ, x = startTime + (k : ℚ) * stepFor startTime endTime ∧ x ≤ endTime) := by
  have hstep := stepFor_pos startTime endTime
  have hmap : (chartData products quantities startTime endTime).map (fun dp => dp.time)
      = sampleTimes endTime (stepFor startTime endTime) startTime := by
    rw [chartData_of_ne_nil products quantities hp hq, List.map_map]
    simp [Function.comp_def]
  refine ⟨?_, ?_, ?_, ?_⟩
  · rw [hmap, sampleTimes, dif_pos ⟨hse, hstep⟩]
    rfl
  · rw [hmap, sampleTimes_eq_range_map _ _ hstep, List.chain'_map]
    generalize (⌊(endTime - startTime) / stepFor startTime endTime⌋ + 1).toNat = n
    cases n with
    | zero =>
      rw [List.range_zero]
      exact List.chain'_nil
    | succ m =>
      rw [List.chain'_range_succ]
      intro i _
      push_cast
      ring
  · rw [hmap, sampleTimes_eq_range_map _ _ hstep, List.pairwise_map]
    have hmono : ∀ a b : ℕ, a < b →
        startTime + (a : ℚ) * stepFor startTime endTime
          < startTime + (b : ℚ) * stepFor startTime endTime := by
      intro a b hab
      have hab' : (a : ℚ) < (b : ℚ) := by exact_mod_cast hab
      have := mul_lt_mul_of_pos_right hab' hstep
      linarith
    exact (List.pairwise_lt_range _).imp (fun {a b} hab => hmono a b hab)
  · intro x
    rw [hmap]
    exact sampleTimes_mem _ _ hstep _ x

/-- Witness for C3 on a one-hour window, which carries samples at 0 and 3600000. -/
theorem chartData_grid_witness :
    ((chartData [prodA] [evA] 0 3600000).map (fun dp => dp.time)).head? = some 0 ∧
    List.Chain' (fun a b => b = a + stepFor 0 3600000)
      ((chartData [prodA] [evA] 0 3600000).map (fun dp => dp.time)) ∧
    List.Pairwise (· < ·)
      ((chartData [prodA] [evA] 0 3600000).map (fun dp => dp.time)) ∧
    (∀ x, x ∈ (chartData [prodA] [evA] 0 3600000).map (fun dp => dp.time) ↔
      ∃ k : ℕ, x = 0 + (k : ℚ) * stepFor 0 3600000 ∧ x ≤ 3600000) :=
  chartData_grid [prodA] [evA] 0 3600000 (by simp) (by simp) (by norm_num)

/-! ### Event-boundary behaviour -/

lemma productConcentration_cons_of_future (l : List Quantity) (q : Quantity) (p : Product)
    (t : ℚ) (hft : t < q.timestamp) :
    productConcentration (q :: l) p t = productConcentration l p t := by
  rw [productConcentration_def, productConcentration_def, List.filter_cons]
  by_cases hid : (q.productId == p.id) = true
  · rw [if_pos hid, List.map_cons, List.sum_cons]
    have hneg : ¬ (0 : ℚ) ≤ (t - q.timestamp) / 3600000 := by
      rw [not_le]
      exact div_neg_of_neg_of_pos (by linarith) (by norm_num)
    rw [if_neg hneg, zero_add]
  · rw [if_neg hid]

/-- C5: an event with `timestamp > t` contributes exactly zero at the sample
instant `t` — dropping it from the head of the list leaves the value
unchanged, and a single future event yields value 0 — while an event with
`timestamp = t` contributes exactly its full amount (`C(0) = amount`). -/
theorem event_contribution_boundaries (l : List Quantity) (q : Quantity) (p : Product)
    (t : ℚ) :
    (t < q.timestamp → productConcentration (q :: l) p t = productConcentration l p t) ∧
    (t < q.timestamp → productConcentration [q] p t = 0) ∧
    (0 < p.halfLife → q.productId = p.id → 0 < q.amount →
      productConcentration [q] p q.timestamp = (q.amount : ℝ)) := by
  refine ⟨fun hft => productConcentration_cons_of_future l q p t hft,
    fun hft => ?_, fun hh hid ha => ?_⟩
  · rw [productConcentration_cons_of_future [] q p t hft, productConcentration_nil]
  · have hid' : (q.productId == p.id) = true := by simp [hid]
    rw [productConcentration_def, List.filter_cons, if_pos hid', List.filter_nil]
    simp only [List.map_cons, List.map_nil, List.sum_cons, List.sum_nil, add_zero]
    rw [sub_self, zero_div, if_pos le_rfl, calculateConcentration_eq]
    rw [Rat.cast_zero, mul_zero, Real.exp_zero, mul_one]
    exact max_eq_right (by exact_mod_cast le_of_lt ha)

/-- Witness for C5: the 20 mg dose of `evA` (timestamp 0) contributes nothing
at `t = -3600000` (one hour before), and exactly 20 at its own timestamp. -/
theorem event_contribution_boundaries_witness :
    (productConcentration (evA :: []) prodA (-3600000)
      = productConcentration [] prodA (-3600000)) ∧
    (productConcentration [evA] prodA (-3600000) = 0) ∧
    (productConcentration [evA] prodA evA.timestamp = (evA.amount : ℝ)) :=
  ⟨(event_contribution_boundaries [] evA prodA (-3600000)).1 (by norm_num [evA]),
   (event_contribution_boundaries [] evA prodA (-3600000)).2.1 (by norm_num [evA]),
   (event_contribution_boundaries [] evA prodA 0).2.2 (by norm_num [prodA]) rfl
     (by norm_num [evA])⟩

/-- C8: with a single dose of a product with positive half-life, the value is
strictly decreasing across any two instants at or after the dose. -/
theorem singleDose_strict_decay (p : Product) (q : Quantity) (t1 t2 : ℚ)
    (hh : 0 < p.halfLife) (hid : q.productId = p.id) (ha : 0 < q.amount)
    (h1 : q.timestamp ≤ t1) (h12 : t1 < t2) :
    productConcentration [q] p t2 < productConcentration [q] p t1 := by
  have hid' : (q.productId == p.id) = true := by simp [hid]
  rw [productConcentration_def, productConcentration_def, List.filter_cons, if_pos hid',
    List.filter_nil]
  simp only [List.map_cons, List.map_nil, List.sum_cons, List.sum_nil, add_zero]
  have hnn1 : (0 : ℚ) ≤ (t1 - q.timestamp) / 3600000 :=
    div_nonneg (by linarith) (by norm_num)
  have hnn2 : (0 : ℚ) ≤ (t2 - q.timestamp) / 3600000 :=
    div_nonneg (by linarith) (by norm_num)
  rw [if_pos hnn1, if_pos hnn2, calculateConcentration_eq, calculateConcentration_eq]
  have hC : ∀ dt : ℚ, (0 : ℝ) < (q.amount : ℝ) *
      Real.exp (-(Real.log 2 / (p.halfLife : ℝ)) * (dt : ℝ)) := by
    intro dt
    exact mul_pos (by exact_mod_cast ha) (Real.exp_pos _)
  rw [max_eq_right (le_of_lt (hC _)), max_eq_right (le_of_lt (hC _))]
  have hlam : (0 : ℝ) < Real.log 2 / (p.halfLife : ℝ) :=
    div_pos (Real.log_pos (by norm_num)) (by exact_mod_cast hh)
  have hdt : ((t1 - q.timestamp) / 3600000 : ℚ) < (t2 - q.timestamp) / 3600000 := by
    have hsub : t1 - q.timestamp < t2 - q.timestamp := by linarith
    have h36 : (0 : ℚ) < 3600000 := by norm_num
    exact div_lt_div_of_pos_right hsub h36
  have hdtR : (((t1 - q.timestamp) / 3600000 : ℚ) : ℝ)
      < (((t2 - q.timestamp) / 3600000 : ℚ) : ℝ) := by exact_mod_cast hdt
  refine mul_lt_mul_of_pos_left ?_ (by exact_mod_cast ha)
  rw [Real.exp_lt_exp]
  have := mul_lt_mul_of_pos_left hdtR hlam
  linarith

/-- Witness for C8: the single 20 mg dose decays strictly between instants
0 and 3600000 (one hour later). -/
theorem singleDose_strict_decay_witness :
    productConcentration [evA] prodA 3600000 < productConcentration [evA] prodA 0 :=
  singleDose_strict_decay prodA evA 0 3600000 (by norm_num [prodA]) rfl
    (by norm_num [evA]) (by norm_num [evA]) (by norm_num)

/-! ### Superposition -/

lemma productConcentration_superpose (p : Product) (l1 l2 : List Quantity)
    (ea eb eab : Quantity)
    (hidb : eb.productId = ea.productId) (hidc : eab.productId = ea.productId)
    (htsb : eb.timestamp = ea.timestamp) (htsc : eab.timestamp = ea.timestamp)
    (hamt : eab.amount = ea.amount + eb.amount) (t : ℚ) :
    productConcentration (l1 ++ ea :: eb :: l2) p t
      = productConcentration (l1 ++ eab :: l2) p t := by
  rw [productConcentration_def, productConcentration_def, List.filter_append,
    List.filter_append, List.map_append, List.map_append, List.sum_append, List.sum_append]
  have hmid : ((List.filter (fun q => q.productId == p.id) (ea :: eb :: l2)).map (fun q =>
        if (0 : ℚ) ≤ (t - q.timestamp) / 3600000 then
          calculateConcentration q.amount p.halfLife ((t - q.timestamp) / 3600000)
        else 0)).sum
      = ((List.filter (fun q => q.productId == p.id) (eab :: l2)).map (fun q =>
        if (0 : ℚ) ≤ (t - q.timestamp) / 3600000 then
          calculateConcentration q.amount p.halfLife ((t - q.timestamp) / 3600000)
        else 0)).sum := by
    rw [List.filter_cons, List.filter_cons, List.filter_cons]
    by_cases hid : (ea.productId == p.id) = true
    · have hidb' : (eb.productId == p.id) = true := by rw [hidb]; exact hid
      have hidc' : (eab.productId == p.id) = true := by rw [hidc]; exact hid
      rw [if_pos hid, if_pos hidb', if_pos hidc', List.map_cons, List.map_cons,
        List.map_cons, List.sum_cons, List.sum_cons, List.sum_cons, htsb, htsc, hamt]
      by_cases hc : (0 : ℚ) ≤ (t - ea.timestamp) / 3600000
      · rw [if_pos hc, if_pos hc, if_pos hc, calculateConcentration_eq,
          calculateConcentration_eq, calculateConcentration_eq]
        push_cast
        ring
      · rw [if_neg hc, if_neg hc, if_neg hc]
        ring
    · have hidb' : ¬ (eb.productId == p.id) = true := by rw [hidb]; exact hid
      have hidc' : ¬ (eab.productId == p.id) = true := by rw [hidc]; exact hid
      rw [if_neg hid, if_neg hidb', if_neg hidc']
  rw [hmid]

/-- C4: replacing two simultaneous doses of amounts `a` and `b` of the same
product by one dose of amount `a + b` leaves the projector's whole output
unchanged. -/
theorem chartData_superposition (products : List Product) (l1 l2 : List Quantity)
    (ea eb eab : Quantity) (startTime endTime : ℚ)
    (ha : 0 < ea.amount) (hb : 0 < eb.amount)
    (hidb : eb.productId = ea.productId) (hidc : eab.productId = ea.productId)
    (htsb : eb.timestamp = ea.timestamp) (htsc : eab.timestamp = ea.timestamp)
    (hamt : eab.amount = ea.amount + eb.amount) :
    chartData products (l1 ++ ea :: eb :: l2) startTime endTime
      = chartData products (l1 ++ eab :: l2) startTime endTime := by
  by_cases hp : products = []
  · simp [chartData, hp]
  · rw [chartData_of_ne_nil products _ hp (by simp) startTime endTime,
      chartData_of_ne_nil products _ hp (by simp) startTime endTime]
    refine List.map_congr_left (fun tm _ => ?_)
    congr 1
    refine List.map_congr_left (fun p _ => ?_)
    rw [productConcentration_superpose p l1 l2 ea eb eab hidb hidc htsb htsc hamt tm]

/-- Witness for C4: 7 mg + 13 mg at instant 0 equals a single 20 mg dose. -/
theorem chartData_superposition_witness :
    chartData [prodA] ([] ++ evSa :: evSb :: []) 0 0
      = chartData [prodA] ([] ++ evSab :: []) 0 0 :=
  chartData_superposition [prodA] [] [] evSa evSb evSab 0 0
    (by norm_num [evSa]) (by norm_num [evSb]) rfl rfl rfl rfl
    (by norm_num [evSa, evSb, evSab])

/-! ### Dangling events -/

lemma productConcentration_no_match (quantities : List Quantity) (p : Product) (t : ℚ)
    (h : ∀ q ∈ quantities, q.productId ≠ p.id) :
    productConcentration quantities p t = 0 := by
  rw [productConcentration_def]
  have hfil : quantities.filter (fun q => q.productId == p.id) = [] := by
    rw [List.filter_eq_nil_iff]
    intro q hq
    simp [h q hq]
  rw [hfil]
  simp

lemma productConcentration_dangling (l1 l2 : List Quantity) (ev : Quantity) (p : Product)
    (t : ℚ) (h : ev.productId ≠ p.id) :
    productConcentration (l1 ++ ev :: l2) p t = productConcentration (l1 ++ l2) p t := by
  rw [productConcentration_def, productConcentration_def, List.filter_append,
    List.filter_append, List.filter_cons, if_neg (by simp [h])]

/-- C6 counterexample: a dangling event that is the only event produces the
one-sample zero grid, while removing it empties the events list and so the
whole output — the two outputs differ. -/
theorem dangling_removal_counterexample :
    chartData [prodA] [evDangling] 0 0 ≠ chartData [prodA] [] 0 0 := by
  have h2 : chartData [prodA] [] 0 0 = [] := by simp [chartData]
  rw [h2, chartData_of_ne_nil _ _ (by simp) (by simp) 0 0]
  have hstep : stepFor 0 0 = 3600000 := by
    norm_num [stepFor, intervalForTotalHours]
  rw [hstep, sampleTimes_zero_window]
  simp

/-- C6 (amended): a dangling event contributes to no product's sum, so as
long as at least one other event remains, removing it leaves the output
unchanged (removing the only event instead empties the output entirely). -/
theorem chartData_dangling_excluded (products : List Product) (l1 l2 : List Quantity)
    (ev : Quantity) (startTime endTime : ℚ)
    (hdang : ∀ p ∈ products, ev.productId ≠ p.id)
    (hrest : l1 ++ l2 ≠ []) :
    chartData products (l1 ++ ev :: l2) startTime endTime
      = chartData products (l1 ++ l2) startTime endTime := by
  by_cases hp : products = []
  · simp [chartData, hp]
  · rw [chartData_of_ne_nil products _ hp (by simp) startTime endTime,
      chartData_of_ne_nil products _ hp hrest startTime endTime]
    refine List.map_congr_left (fun tm _ => ?_)
    congr 1
    refine List.map_congr_left (fun p hmem => ?_)
    rw [productConcentration_dangling l1 l2 ev p tm (hdang p hmem)]

/-- Witness for the amended C6: removing the dangling event next to `evA`
leaves the output unchanged. -/
theorem chartData_dangling_excluded_witness :
    chartData [prodA] ([evA] ++ evDangling :: []) 0 0
      = chartData [prodA] ([evA] ++ []) 0 0 :=
  chartData_dangling_excluded [prodA] [evA] [] evDangling 0 0
    (by intro p hp; rw [List.mem_singleton.mp hp]; decide)
    (by simp)

/-! ### Sample count -/

/-- C9 counterexample: a 400-hour window (already one of the spec's own
example spans) yields 67 samples under the 6-hour interval — far outside the
claimed ≈24–30 band. -/
theorem sample_count_band_counterexample :
    (chartData [prodA] [evA] 0 1440000000).length = 67 ∧
    ¬ (chartData [prodA] [evA] 0 1440000000).length ≤ 30 := by
  have hstep : stepFor 0 1440000000 = 21600000 := by
    norm_num [stepFor, intervalForTotalHours]
  have hlen : (chartData [prodA] [evA] 0 1440000000).length = 67 := by
    rw [chartData_of_ne_nil _ _ (by simp) (by simp) 0 1440000000, List.length_map, hstep,
      sampleTimes_length _ _ (by norm_num) 0]
    have hfl : ⌊(1440000000 - 0 : ℚ) / 21600000⌋ = 66 := by
      rw [Int.floor_eq_iff]
      norm_num
    rw [hfl]
    rfl
  exact ⟨hlen, by rw [hlen]; norm_num⟩

/-- C9 (amended): the sample count is `⌊span/interval⌋ + 1` under the
resolution policy; it stays at most 25 for day-scale windows (span ≤ 24h),
but it is not bounded by ≈24–30 in general — it grows with the span (e.g. 67
samples for a 400h window). -/
theorem chartData_length_formula (products : List Product) (quantities : List Quantity)
    (startTime endTime : ℚ) (hp : products ≠ []) (hq : quantities ≠ [])
    (hse : startTime ≤ endTime) :
    (chartData products quantities startTime endTime).length
        = (⌊(endTime - startTime) / stepFor startTime endTime⌋ + 1).toNat ∧
    ((endTime - startTime) / 3600000 ≤ 24 →
      (chartData products quantities startTime endTime).length ≤ 25) := by
  have hformula : (chartData products quantities startTime endTime).length
      = (⌊(endTime - startTime) / stepFor startTime endTime⌋ + 1).toNat := by
    rw [chartData_of_ne_nil products quantities hp hq startTime endTime, List.length_map,
      sampleTimes_length _ _ (stepFor_pos startTime endTime) startTime]
  refine ⟨hformula, fun hspan => ?_⟩
  rw [hformula]
  have hstep : stepFor startTime endTime = 3600000 := by
    unfold stepFor intervalForTotalHours
    rw [if_pos hspan]
    norm_num
  rw [hstep]
  have h24 : ⌊(24 : ℚ)⌋ = 24 := by norm_num
  have hfl : ⌊(endTime - startTime) / 3600000⌋ ≤ 24 := by
    have := Int.floor_le_floor hspan
    rw [h24] at this
    exact this
  omega

/-- Witness for the amended C9: the degenerate zero-width window has exactly
one sample. -/
theorem chartData_length_formula_witness :
    ((chartData [prodA] [evA] 0 0).length
        = (⌊(0 - 0 : ℚ) / stepFor 0 0⌋ + 1).toNat ∧
      ((0 - 0 : ℚ) / 3600000 ≤ 24 → (chartData [prodA] [evA] 0 0).length ≤ 25)) :=
  chartData_length_formula [prodA] [evA] 0 0 (by simp) (by simp) (by norm_num)

/-! ### Non-matching inputs still produce the zero-valued grid -/

/-- C10: with both lists non-empty but no event matching any product, the
projector still returns the full sample grid, every sample carrying value 0
for every product — it does not return the empty sequence. -/
theorem chartData_no_match_zero_grid (products : List Product) (quantities : List Quantity)
    (startTime endTime : ℚ) (hp : products ≠ []) (hq : quantities ≠ [])
    (hse : startTime ≤ endTime)
    (hnm : ∀ q ∈ quantities, ∀ p ∈ products, q.productId ≠ p.id) :
    chartData products quantities startTime endTime
        = (sampleTimes endTime (stepFor startTime endTime) startTime).map (fun time =>
            { time := time, values := products.map (fun p => (p.id, (0 : ℝ))) }) ∧
    chartData products quantities startTime endTime ≠ [] := by
  have hmain : chartData products quantities startTime endTime
      = (sampleTimes endTime (stepFor startTime endTime) startTime).map (fun time =>
          { time := time, values := products.map (fun p => (p.id, (0 : ℝ))) }) := by
    rw [chartData_of_ne_nil products quantities hp hq startTime endTime]
    refine List.map_congr_left (fun tm _ => ?_)
    congr 1
    refine List.map_congr_left (fun p hpmem => ?_)
    rw [productConcentration_no_match quantities p tm (fun q hq' => hnm q hq' p hpmem)]
  refine ⟨hmain, ?_⟩
  rw [hmain, sampleTimes, dif_pos ⟨hse, stepFor_pos startTime endTime⟩]
  simp

/-- Witness for C10: one product, one dangling event, zero-width window. -/
theorem chartData_no_match_zero_grid_witness :
    (chartData [prodA] [evDangling] 0 0
        = (sampleTimes 0 (stepFor 0 0) 0).map (fun time =>
            { time := time, values := [prodA].map (fun p => (p.id, (0 : ℝ))) }) ∧
      chartData [prodA] [evDangling] 0 0 ≠ []) :=
  chartData_no_match_zero_grid [prodA] [evDangling] 0 0 (by simp) (by simp) (by norm_num)
    (by intro q hq p hp; rw [List.mem_singleton.mp hq, List.mem_singleton.mp hp]; decide)
